import Mathlib

/-!
Verification of the availability-scheduling and shared-access core of the
`interne` bookmark manager, shallowly embedded from its Rust sources
(`src/routes/entries.rs`, `src/routes/collections.rs`, `src/routes/tags.rs`,
`src/models/*`).

Modelling conventions:
* UTC instants (`chrono::DateTime<Utc>`) are whole seconds since an arbitrary
  epoch, as `Int`; `chrono::Duration` is likewise a whole-second `Int`.
  `Duration::num_days` / `num_hours` / `num_minutes` divide the second count
  by 86400 / 3600 / 60 truncating toward zero, exactly as Rust `i64`
  division does, so they are embedded with `Int.tdiv`.
* A stored timestamp string is either a string that parses to an instant or
  a malformed string; `chrono`'s parse of a stored string is `TimeStr.parse`.
* The SQLite store is a record of row lists; each SQL statement of the
  routes is embedded as the corresponding list operation, with its `WHERE`
  clause as a boolean predicate.
-/

namespace Interne

/-- A stored timestamp string: either it parses to a UTC instant (whole
seconds) or it is malformed. -/
inductive TimeStr where
| valid (t : Int)
| malformed
deriving DecidableEq, Repr

/-- `chrono` parse of a stored timestamp string (`str.parse::<DateTime<Utc>>()`),
returning `none` on a malformed string. -/
def TimeStr.parse : TimeStr → Option Int
| .valid t => some t
| .malformed => none

/-- `chrono::Duration::num_days`: whole-second count divided by 86400,
truncating toward zero (Rust `i64` division). -/
def numDays (secs : Int) : Int := Int.tdiv secs 86400

/-- `chrono::Duration::num_hours`. -/
def numHours (secs : Int) : Int := Int.tdiv secs 3600

/-- `chrono::Duration::num_minutes`. -/
def numMinutes (secs : Int) : Int := Int.tdiv secs 60

/-- The `Interval` enum of `src/models/entry.rs`. -/
inductive Interval where
| hours
| days
| weeks
| months
| years
deriving DecidableEq, Repr

/-- The `Entry` record of `src/models/entry.rs`. Timestamp columns that the
core never parses (`created_at`, `updated_at`) are kept as the instant they
encode; `dismissed_at` is kept as a stored string since the code parses it. -/
structure Entry where
  id : String
  user_id : String
  collection_id : Option String
  url : String
  title : String
  description : Option String
  duration : Int
  interval : Interval
  dismissed_at : Option TimeStr
  created_at : Int
  updated_at : Int
deriving DecidableEq, Repr

/-- The `available_in` string let-bound inside `calculate_availability`
(`src/routes/entries.rs` lines 169-190), factored into a named function of
the remaining span: days when `num_days > 0`, else hours when
`num_hours > 0`, else minutes, with singular wording at a count of 1. -/
def availableInStr (diff : Int) : String :=
  if 0 < numDays diff then
    if numDays diff = 1 then "in 1 day"
    else "in " ++ toString (numDays diff) ++ " days"
  else if 0 < numHours diff then
    if numHours diff = 1 then "in 1 hour"
    else "in " ++ toString (numHours diff) ++ " hours"
  else
    if numMinutes diff = 1 then "in 1 minute"
    else "in " ++ toString (numMinutes diff) ++ " minutes"

/-- The interval-to-span conversion inside `calculate_availability`
(`src/routes/entries.rs` lines 155-161): `Duration::hours/days/weeks` and
the fixed 30-day month and 365-day year, in whole seconds. -/
def intervalSpan (duration : Int) : Interval → Int
| .hours => duration * 3600
| .days => duration * 86400
| .weeks => duration * 604800
| .months => (duration * 30) * 86400
| .years => (duration * 365) * 86400

/-- `calculate_availability` from `src/routes/entries.rs` lines 148-193,
embedded clause by clause: absent `dismissed_at` is always available; the
parse failure falls back to `now` (`unwrap_or(now)`); the interval converts
via `intervalSpan`; the boundary test is `now >= available_at`; otherwise
the remaining string is `availableInStr` of the difference. -/
def calculate_availability (entry : Entry) (now : Int) : Bool × Option String :=
  match entry.dismissed_at with
  | none => (true, none)
  | some s =>
    let dismissed : Int := (TimeStr.parse s).getD now
    let available_at := dismissed + intervalSpan entry.duration entry.interval
    if available_at ≤ now then
      (true, none)
    else
      (false, some (availableInStr (available_at - now)))

/-- The relative-time string built inside `format_last_viewed`
(`src/routes/entries.rs` lines 200-244), factored into a named function of
the elapsed span: years by `num_days > 365`, months by `num_days > 30`,
weeks by `num_days > 7`, then days, hours, minutes, else "just now"; year,
month and week counts divide `num_days` by 365, 30 and 7 (Rust `i64`
division, i.e. truncation). -/
def lastViewedStr (diff : Int) : String :=
  if 365 < numDays diff then
    if Int.tdiv (numDays diff) 365 = 1 then "1 year ago"
    else toString (Int.tdiv (numDays diff) 365) ++ " years ago"
  else if 30 < numDays diff then
    if Int.tdiv (numDays diff) 30 = 1 then "1 month ago"
    else toString (Int.tdiv (numDays diff) 30) ++ " months ago"
  else if 7 < numDays diff then
    if Int.tdiv (numDays diff) 7 = 1 then "1 week ago"
    else toString (Int.tdiv (numDays diff) 7) ++ " weeks ago"
  else if 0 < numDays diff then
    if numDays diff = 1 then "1 day ago"
    else toString (numDays diff) ++ " days ago"
  else if 0 < numHours diff then
    if numHours diff = 1 then "1 hour ago"
    else toString (numHours diff) ++ " hours ago"
  else if 0 < numMinutes diff then
    if numMinutes diff = 1 then "1 minute ago"
    else toString (numMinutes diff) ++ " minutes ago"
  else "just now"

/-- `format_last_viewed` from `src/routes/entries.rs` lines 195-245: absent
`dismissed_at` or a parse failure yields no string (`.ok()?`); otherwise the
elapsed span `now - dismissed` is rendered by `lastViewedStr`. -/
def format_last_viewed (dismissed_at : Option TimeStr) (now : Int) : Option String :=
  match dismissed_at with
  | none => none
  | some s =>
    match TimeStr.parse s with
    | none => none
    | some dismissed => some (lastViewedStr (now - dismissed))

/-- Spec §4.1 step 2: `elapsed_allowance` as a concrete second span, written
from the spec's unit table (hours, days, weeks, months as 30 fixed days,
years as 365 fixed days). -/
def elapsedAllowanceSpec (duration : Int) : Interval → Int
| .hours => duration * 3600
| .days => duration * 86400
| .weeks => duration * (7 * 86400)
| .months => duration * (30 * 86400)
| .years => duration * (365 * 86400)

/-- Spec §4.1 step 5: render the largest whole unit ≥ 1 among days, hours,
minutes of a positive remaining span, counts by floor division, singular
wording exactly at a count of 1. Written from the spec's words. -/
def remainingSpec (diff : Int) : String :=
  if 86400 ≤ diff then
    if diff / 86400 = 1 then "in 1 day"
    else "in " ++ toString (diff / 86400) ++ " days"
  else if 3600 ≤ diff then
    if diff / 3600 = 1 then "in 1 hour"
    else "in " ++ toString (diff / 3600) ++ " hours"
  else
    if diff / 60 = 1 then "in 1 minute"
    else "in " ++ toString (diff / 60) ++ " minutes"

/-- Spec §4.1 steps 1-5 assembled: absent `dismissed_at` is always available,
`available_at = dismissed_at + elapsed_allowance`, the boundary is inclusive
(`now >= available_at` is available), and otherwise the remaining span is
rendered by `remainingSpec`. A malformed stored timestamp is substituted by
`now` per §7. Written from the spec's words. -/
def availabilitySpec (entry : Entry) (now : Int) : Bool × Option String :=
  match entry.dismissed_at with
  | none => (true, none)
  | some s =>
    let dismissed : Int := (TimeStr.parse s).getD now
    let available_at := dismissed + elapsedAllowanceSpec entry.duration entry.interval
    if now < available_at then
      (false, some (remainingSpec (available_at - now)))
    else
      (true, none)

/-- Spec §4.1 second responsibility, written from the spec's words with unit
thresholds expressed as second spans: years when the whole-day count exceeds
365 (i.e. the span reaches 366 days), months beyond 30 days, weeks beyond
7 days, then days, hours, minutes, else "just now"; year, month and week
counts are floor divisions of the whole-day count by 365, 30 and 7. -/
def lastSeenSpec (diff : Int) : String :=
  if 366 * 86400 ≤ diff then
    if (diff / 86400) / 365 = 1 then "1 year ago"
    else toString ((diff / 86400) / 365) ++ " years ago"
  else if 31 * 86400 ≤ diff then
    if (diff / 86400) / 30 = 1 then "1 month ago"
    else toString ((diff / 86400) / 30) ++ " months ago"
  else if 8 * 86400 ≤ diff then
    if (diff / 86400) / 7 = 1 then "1 week ago"
    else toString ((diff / 86400) / 7) ++ " weeks ago"
  else if 86400 ≤ diff then
    if diff / 86400 = 1 then "1 day ago"
    else toString (diff / 86400) ++ " days ago"
  else if 3600 ≤ diff then
    if diff / 3600 = 1 then "1 hour ago"
    else toString (diff / 3600) ++ " hours ago"
  else if 60 ≤ diff then
    if diff / 60 = 1 then "1 minute ago"
    else toString (diff / 60) ++ " minutes ago"
  else
    "just now"

lemma tdiv_eq_ediv_of_nonneg {a b : Int} (ha : 0 ≤ a) (hb : 0 ≤ b) :
    Int.tdiv a b = a / b := Int.tdiv_eq_ediv ha hb

lemma numDays_eq {a : Int} (ha : 0 ≤ a) : numDays a = a / 86400 :=
  tdiv_eq_ediv_of_nonneg ha (by norm_num)

lemma numHours_eq {a : Int} (ha : 0 ≤ a) : numHours a = a / 3600 :=
  tdiv_eq_ediv_of_nonneg ha (by norm_num)

lemma numMinutes_eq {a : Int} (ha : 0 ≤ a) : numMinutes a = a / 60 :=
  tdiv_eq_ediv_of_nonneg ha (by norm_num)

lemma availableInStr_eq_spec (diff : Int) (hpos : 0 < diff) :
    availableInStr diff = remainingSpec diff := by
  have h0 : (0 : Int) ≤ diff := le_of_lt hpos
  rw [availableInStr, remainingSpec]
  rw [numDays_eq h0, numHours_eq h0, numMinutes_eq h0]
  have c1 : (0 < diff / 86400) ↔ (86400 ≤ diff) := by omega
  have c2 : (0 < diff / 3600) ↔ (3600 ≤ diff) := by omega
  simp only [c1, c2]

lemma intervalSpan_eq_spec (duration : Int) (iv : Interval) :
    intervalSpan duration iv = elapsedAllowanceSpec duration iv := by
  cases iv <;> simp [intervalSpan, elapsedAllowanceSpec] <;> ring

/-- C1: `calculate_availability` follows the §4.1 algorithm exactly — for
every entry and instant it agrees with the spec-side recomputation
(`availabilitySpec`, assembled from the spec's unit table, inclusive
boundary, and largest-whole-unit rendering), and the remaining string is
present exactly when the entry is unavailable. -/
theorem calculate_availability_follows_spec (entry : Entry) (now : Int) :
    calculate_availability entry now = availabilitySpec entry now ∧
    ((calculate_availability entry now).2.isSome ↔
      (calculate_availability entry now).1 = false) := by
  constructor
  · rw [calculate_availability, availabilitySpec]
    cases hd : entry.dismissed_at with
    | none => rfl
    | some s =>
      simp only [intervalSpan_eq_spec]
      set dismissed : Int := (TimeStr.parse s).getD now with hdis
      set avail : Int := dismissed + elapsedAllowanceSpec entry.duration entry.interval
        with havail
      by_cases hle : avail ≤ now
      · rw [if_pos hle, if_neg (show ¬ now < avail by omega)]
      · rw [if_neg hle, if_pos (show now < avail by omega)]
        rw [availableInStr_eq_spec (avail - now) (by omega)]
  · rw [calculate_availability]
    cases hd : entry.dismissed_at with
    | none => simp
    | some s =>
      simp only
      split <;> simp

lemma tdiv_nonpos_of_nonpos {a b : Int} (ha : a ≤ 0) (hb : 0 ≤ b) :
    Int.tdiv a b ≤ 0 := by
  have h1 : 0 ≤ Int.tdiv (-a) b := Int.tdiv_nonneg (by omega) hb
  rw [Int.neg_tdiv] at h1
  omega

lemma lastViewedStr_eq_spec (diff : Int) (h0 : 0 ≤ diff) :
    lastViewedStr diff = lastSeenSpec diff := by
  rw [lastViewedStr, lastSeenSpec]
  rw [numDays_eq h0, numHours_eq h0, numMinutes_eq h0]
  have hdn : (0 : Int) ≤ diff / 86400 := Int.ediv_nonneg h0 (by norm_num)
  rw [tdiv_eq_ediv_of_nonneg hdn (by norm_num : (0:Int) ≤ 365)]
  rw [tdiv_eq_ediv_of_nonneg hdn (by norm_num : (0:Int) ≤ 30)]
  rw [tdiv_eq_ediv_of_nonneg hdn (by norm_num : (0:Int) ≤ 7)]
  have c1 : (365 < diff / 86400) ↔ (366 * 86400 ≤ diff) := by omega
  have c2 : (30 < diff / 86400) ↔ (31 * 86400 ≤ diff) := by omega
  have c3 : (7 < diff / 86400) ↔ (8 * 86400 ≤ diff) := by omega
  have c4 : (0 < diff / 86400) ↔ (86400 ≤ diff) := by omega
  have c5 : (0 < diff / 3600) ↔ (3600 ≤ diff) := by omega
  have c6 : (0 < diff / 60) ↔ (60 ≤ diff) := by omega
  simp only [c1, c2, c3, c4, c5, c6]

/-- C7: for every parseable `dismissed_at` with non-negative elapsed time the
last-seen formatter agrees with the spec-side rendering (`lastSeenSpec`:
largest unit descending with strict thresholds and floor counts), absent
`dismissed_at` yields no string, and the spec's concrete threshold examples
hold (45 minutes, 1 hour, 5 hours, 1 day, 8 days → week, 3 weeks, 31 days →
month, 90 days, 400 days → year, 800 days → 2 years, 0 elapsed). -/
theorem format_last_viewed_follows_spec (t now : Int) (h : t ≤ now) :
    format_last_viewed (some (TimeStr.valid t)) now = some (lastSeenSpec (now - t)) ∧
    (∀ n : Int, format_last_viewed none n = none) ∧
    format_last_viewed (some (TimeStr.valid 0)) (45 * 60) = some "45 minutes ago" ∧
    format_last_viewed (some (TimeStr.valid 0)) 3600 = some "1 hour ago" ∧
    format_last_viewed (some (TimeStr.valid 0)) (5 * 3600) = some "5 hours ago" ∧
    format_last_viewed (some (TimeStr.valid 0)) 86400 = some "1 day ago" ∧
    format_last_viewed (some (TimeStr.valid 0)) (8 * 86400) = some "1 week ago" ∧
    format_last_viewed (some (TimeStr.valid 0)) (21 * 86400) = some "3 weeks ago" ∧
    format_last_viewed (some (TimeStr.valid 0)) (31 * 86400) = some "1 month ago" ∧
    format_last_viewed (some (TimeStr.valid 0)) (90 * 86400) = some "3 months ago" ∧
    format_last_viewed (some (TimeStr.valid 0)) (400 * 86400) = some "1 year ago" ∧
    format_last_viewed (some (TimeStr.valid 0)) (800 * 86400) = some "2 years ago" ∧
    format_last_viewed (some (TimeStr.valid 0)) 0 = some "just now" := by
  refine ⟨?_, fun n => rfl, by decide, by decide, by decide, by decide, by decide,
    by decide, by decide, by decide, by decide, by decide, by decide⟩
  show some (lastViewedStr (now - t)) = some (lastSeenSpec (now - t))
  exact congrArg some (lastViewedStr_eq_spec (now - t) (by omega))

/-- Witness for C7 at a concrete input: 45 whole minutes elapsed. -/
theorem format_last_viewed_follows_spec_witness :
    format_last_viewed (some (TimeStr.valid 0)) (45 * 60) =
      some (lastSeenSpec (45 * 60 - 0)) :=
  (format_last_viewed_follows_spec 0 (45 * 60) (by decide)).1

/-- C10: a parseable `dismissed_at` strictly in the future of `now` makes the
elapsed difference negative; every unit branch of the formatter requires a
strictly positive truncated count, so the result falls through to
"just now" and no negative or zero count is ever rendered. -/
theorem format_last_viewed_future_just_now (t now : Int) (h : now < t) :
    format_last_viewed (some (TimeStr.valid t)) now = some "just now" := by
  show some (lastViewedStr (now - t)) = some "just now"
  have hd : numDays (now - t) ≤ 0 := tdiv_nonpos_of_nonpos (by omega) (by norm_num)
  have hh : numHours (now - t) ≤ 0 := tdiv_nonpos_of_nonpos (by omega) (by norm_num)
  have hm : numMinutes (now - t) ≤ 0 := tdiv_nonpos_of_nonpos (by omega) (by norm_num)
  rw [lastViewedStr]
  rw [if_neg (show ¬ 365 < numDays (now - t) by omega)]
  rw [if_neg (show ¬ 30 < numDays (now - t) by omega)]
  rw [if_neg (show ¬ 7 < numDays (now - t) by omega)]
  rw [if_neg (show ¬ 0 < numDays (now - t) by omega)]
  rw [if_neg (show ¬ 0 < numHours (now - t) by omega)]
  rw [if_neg (show ¬ 0 < numMinutes (now - t) by omega)]

/-- Witness for C10 at a concrete input: dismissed 10 seconds in the future. -/
theorem format_last_viewed_future_just_now_witness :
    format_last_viewed (some (TimeStr.valid 10)) 0 = some "just now" :=
  format_last_viewed_future_just_now 10 0 (by decide)

/-- Counterexample to C5 as stated: on a malformed stored `dismissed_at` the
last-seen formatter does not substitute `now` and render "just now" — the
parse failure propagates through `.ok()?` and the formatter yields no
string at all. -/
theorem format_last_viewed_malformed_not_just_now :
    format_last_viewed (some TimeStr.malformed) 0 = none ∧
    format_last_viewed (some TimeStr.malformed) 0 ≠ some "just now" := by
  exact ⟨rfl, by decide⟩

/-- C5 amended: a malformed `dismissed_at` never propagates a fatal error;
`calculate_availability` recovers by substituting `now` (the entry behaves
exactly as if just dismissed at `now`), while `format_last_viewed` recovers
by omitting the last-seen string (`None`), not by rendering "just now". -/
theorem malformed_dismissed_at_recovery (e : Entry) (now : Int)
    (hd : e.dismissed_at = some TimeStr.malformed) :
    calculate_availability e now =
      calculate_availability { e with dismissed_at := some (TimeStr.valid now) } now ∧
    format_last_viewed e.dismissed_at now = none := by
  constructor
  · rw [calculate_availability, calculate_availability]
    simp [hd, TimeStr.parse]
  · rw [hd]
    rfl

/-- Witness for C5 (amended) at a concrete input. -/
theorem malformed_dismissed_at_recovery_witness :
    calculate_availability
        { id := "e1", user_id := "u1", collection_id := none,
          url := "https://example.com", title := "t", description := none,
          duration := 3, interval := Interval.days,
          dismissed_at := some TimeStr.malformed,
          created_at := 0, updated_at := 0 } 100 =
      calculate_availability
        { id := "e1", user_id := "u1", collection_id := none,
          url := "https://example.com", title := "t", description := none,
          duration := 3, interval := Interval.days,
          dismissed_at := some (TimeStr.valid 100),
          created_at := 0, updated_at := 0 } 100 :=
  (malformed_dismissed_at_recovery _ 100 rfl).1

/-- The `Collection` record of `src/models/collection.rs`. -/
structure Collection where
  id : String
  owner_id : String
  name : String
  invite_code : String
  created_at : Int
  updated_at : Int
deriving DecidableEq, Repr

/-- The `CollectionMember` record of `src/models/collection.rs`. -/
structure CollectionMember where
  collection_id : String
  user_id : String
  joined_at : Int
deriving DecidableEq, Repr

/-- The `Visit` record of `src/models/visit.rs`. -/
structure Visit where
  id : String
  entry_id : String
  user_id : String
  visited_at : Int
deriving DecidableEq, Repr

/-- The SQLite store as row lists, one per table touched by the modelled
routes (the `users`, `tags` and `entry_tags` tables play no role in the
claims under verification). -/
structure Store where
  entries : List Entry
  visits : List Visit
  collections : List Collection
  members : List CollectionMember
deriving DecidableEq, Repr

/-- The observable outcome of a route handler: a rendered page, a redirect,
an htmx `HX-Redirect` header response (all successes), or the
`AppError::NotFound` error (an HTTP 404, `src/error.rs`). -/
inductive Response where
| html
| redirect (dest : String)
| hxRedirect (dest : String)
| notFoundError
deriving DecidableEq, Repr

/-- The SQL access predicate shared by `fetch_entries_for_user` (lines
253-255) and the `visit_entry` lookup (lines 347-349):
`e.user_id = ? OR e.collection_id IN (SELECT collection_id FROM
collection_members WHERE user_id = ?)`. A NULL `collection_id` never
matches the `IN` clause. -/
def entryVisibleTo (members : List CollectionMember) (uid : String) (e : Entry) : Bool :=
  e.user_id == uid ||
    (match e.collection_id with
     | some cid => members.any (fun m => m.collection_id == cid && m.user_id == uid)
     | none => false)

/-- `COUNT(v.id) ... LEFT JOIN visits v ON v.entry_id = e.id` per entry. -/
def visitCount (visits : List Visit) (eid : String) : Int :=
  ((visits.filter (fun v => v.entry_id == eid)).length : Int)

/-- `fetch_entries_for_user` from `src/routes/entries.rs` lines 247-267: the
candidate rows are the entries satisfying `entryVisibleTo`, each paired with
its visit count. The query's `ORDER BY dismissed_at DESC NULLS FIRST` only
permutes the rows and is not load-bearing for the membership claims, so the
embedding keeps the table order. -/
def fetch_entries_for_user (s : Store) (uid : String) : List (Entry × Int) :=
  (s.entries.filter (fun e => entryVisibleTo s.members uid e)).map
    (fun e => (e, visitCount s.visits e.id))

/-- The first store write of `visit_entry` (lines 364-374):
`INSERT INTO visits (id, entry_id, user_id, visited_at) VALUES (?, ?, ?, ?)`. -/
def insertVisitRow (s : Store) (v : Visit) : Store :=
  { s with visits := s.visits ++ [v] }

/-- The second store write of `visit_entry` (lines 377-382):
`UPDATE entries SET dismissed_at = ?, updated_at = ? WHERE id = ?`. -/
def setDismissedAt (s : Store) (id : String) (now : Int) : Store :=
  { s with entries := s.entries.map (fun e =>
      if e.id == id then
        { e with dismissed_at := some (TimeStr.valid now), updated_at := now }
      else e) }

/-- `visit_entry` from `src/routes/entries.rs` lines 339-408: look the entry
up under the owner-or-collection-member access predicate; absence is
`AppError::NotFound`; otherwise insert the visit row and set `dismissed_at`,
then render the entry page. `vid` stands for the fresh `Visit::new` UUID and
`now` for the sampled clock. -/
def visit_entry (s : Store) (uid id vid : String) (now : Int) : Store × Response :=
  match s.entries.find? (fun e => e.id == id && entryVisibleTo s.members uid e) with
  | none => (s, Response.notFoundError)
  | some _ => (setDismissedAt (insertVisitRow s ⟨vid, id, uid, now⟩) id now, Response.html)

/-- The `EntryForm` of `src/routes/entries.rs`. -/
structure EntryForm where
  url : String
  title : String
  description : Option String
  duration : Int
  interval : Interval
  tags : Option String
  collection_id : Option String
deriving DecidableEq, Repr

/-- `validate_entry_form` from `src/routes/entries.rs` lines 104-132, with
the error map as a list of (field, message) pairs. String lengths are
character counts (the Rust byte counts coincide on ASCII data);
`starts_with` is prefix matching on the character list and
`trim().is_empty()` is "every character is whitespace". -/
def validate_entry_form (form : EntryForm) : List (String × String) :=
  (if form.duration < 1 then
    [("duration", "Duration must be at least 1")] else []) ++
  (if !form.url.isEmpty &&
      (!(List.isPrefixOf "http://".data form.url.data) &&
       !(List.isPrefixOf "https://".data form.url.data)) then
    [("url", "URL must start with http:// or https://")] else []) ++
  (if form.title.data.all Char.isWhitespace then
    [("title", "Title is required")] else []) ++
  (if 500 < form.title.length then
    [("title", "Title must be under 500 characters")] else []) ++
  (match form.description with
   | some d => if 5000 < d.length then
      [("description", "Description must be under 5000 characters")] else []
   | none => [])

/-- `update_entry` from `src/routes/entries.rs` lines 580-682: the entry is
looked up by `id = ? AND user_id = ?`; absence redirects home with no write;
a validation failure re-renders the form with no write; otherwise the entry
row is updated. The tag-relinking statements (lines 647-679) act only on
the unmodelled `tags`/`entry_tags` tables, behind the same owner gate. -/
def update_entry (s : Store) (uid id : String) (form : EntryForm) (now : Int) :
    Store × Response :=
  match s.entries.find? (fun e => e.id == id && e.user_id == uid) with
  | none => (s, Response.redirect "/")
  | some _ =>
    if validate_entry_form form ≠ [] then
      (s, Response.html)
    else
      let collection_id := match form.collection_id with
        | some c => if c.isEmpty then none else some c
        | none => none
      ({ s with entries := s.entries.map (fun e =>
          if e.id == id then
            { e with
              url := form.url
              title := form.title
              description := form.description
              duration := form.duration
              interval := form.interval
              collection_id := collection_id
              updated_at := now }
          else e) },
       Response.redirect "/")

/-- `delete_entry` from `src/routes/entries.rs` lines 684-709: look the
entry up by `id = ? AND user_id = ?`; absence answers the htmx redirect with
no write; otherwise `DELETE FROM entries WHERE id = ?`. -/
def delete_entry (s : Store) (uid id : String) : Store × Response :=
  match s.entries.find? (fun e => e.id == id && e.user_id == uid) with
  | none => (s, Response.hxRedirect "/")
  | some _ =>
    ({ s with entries := s.entries.filter (fun e => !(e.id == id)) },
     Response.hxRedirect "/")

/-- The `CollectionForm` of `src/routes/collections.rs`. -/
structure CollectionForm where
  name : String
deriving DecidableEq, Repr

/-- `validate_collection_form` from `src/routes/collections.rs` lines
89-101. -/
def validate_collection_form (form : CollectionForm) : List (String × String) :=
  (if form.name.data.all Char.isWhitespace then
    [("name", "Name is required")] else []) ++
  (if 100 < form.name.length then
    [("name", "Name must be under 100 characters")] else [])

/-- `update_collection` from `src/routes/collections.rs` lines 303-338: a
validation failure re-renders with no write; otherwise
`UPDATE collections SET name = ?, updated_at = ? WHERE id = ? AND owner_id = ?`
touches only a row the actor owns. -/
def update_collection (s : Store) (uid id : String) (form : CollectionForm)
    (now : Int) : Store × Response :=
  if validate_collection_form form ≠ [] then
    (s, Response.html)
  else
    ({ s with collections := s.collections.map (fun c =>
        if c.id == id && c.owner_id == uid then
          { c with name := form.name, updated_at := now }
        else c) },
     Response.redirect "/collections")

/-- `delete_collection` from `src/routes/collections.rs` lines 340-352:
`DELETE FROM collections WHERE id = ? AND owner_id = ?` with an
unconditional htmx-redirect success response. -/
def delete_collection (s : Store) (uid id : String) : Store × Response :=
  ({ s with collections := s.collections.filter (fun c =>
      !(c.id == id && c.owner_id == uid)) },
   Response.hxRedirect "/collections")

/-- `regenerate_invite` from `src/routes/collections.rs` lines 354-371:
`UPDATE collections SET invite_code = ?, updated_at = ? WHERE id = ? AND
owner_id = ?`; `newCode` stands for the fresh UUID. -/
def regenerate_invite (s : Store) (uid id newCode : String) (now : Int) :
    Store × Response :=
  ({ s with collections := s.collections.map (fun c =>
      if c.id == id && c.owner_id == uid then
        { c with invite_code := newCode, updated_at := now }
      else c) },
   Response.redirect ("/collections/" ++ id))

/-- `remove_member` from `src/routes/collections.rs` lines 388-411: the
collection is looked up by `id = ? AND owner_id = ?`; only when present is
the member row deleted; the htmx-redirect response is unconditional. -/
def remove_member (s : Store) (uid cid target : String) : Store × Response :=
  match s.collections.find? (fun c => c.id == cid && c.owner_id == uid) with
  | none => (s, Response.hxRedirect ("/collections/" ++ cid))
  | some _ =>
    ({ s with members := s.members.filter (fun m =>
        !(m.collection_id == cid && m.user_id == target)) },
     Response.hxRedirect ("/collections/" ++ cid))

/-- Modelled from the spec: the `collection_members` table schema lives in a
migration file that is not among the sources; §3 fixes the row identity as
the "(collection id, user id) pair", so SQLite's `INSERT OR IGNORE` (line
219 of `src/routes/collections.rs`) inserts only when no row with the same
pair exists and otherwise leaves the table unchanged. -/
def insertOrIgnoreMember (ms : List CollectionMember) (m : CollectionMember) :
    List CollectionMember :=
  if ms.any (fun x => x.collection_id == m.collection_id && x.user_id == m.user_id) then
    ms
  else
    ms ++ [m]

/-- `join_collection` from `src/routes/collections.rs` lines 201-229: the
collection is looked up by invite code; a missing code or an owner
presenting their own code is a redirect with no write; otherwise the
(collection, user) membership row is inserted with OR IGNORE. -/
def join_collection (s : Store) (uid code : String) (now : Int) : Store × Response :=
  match s.collections.find? (fun c => c.invite_code == code) with
  | none => (s, Response.redirect "/collections")
  | some c =>
    if c.owner_id == uid then
      (s, Response.redirect "/collections")
    else
      ({ s with members := insertOrIgnoreMember s.members ⟨c.id, uid, now⟩ },
       Response.redirect "/collections")

/-- `leave_collection` from `src/routes/collections.rs` lines 373-386:
`DELETE FROM collection_members WHERE collection_id = ? AND user_id = ?`. -/
def leave_collection (s : Store) (uid cid : String) : Store × Response :=
  ({ s with members := s.members.filter (fun m =>
      !(m.collection_id == cid && m.user_id == uid)) },
   Response.redirect "/collections")

/-- The candidate-set membership that the SQL actually implements, as a
proposition: the actor created the entry, or the entry sits in a collection
the actor has a membership row in. -/
def visibleAmended (s : Store) (uid : String) (e : Entry) : Prop :=
  e.user_id = uid ∨ ∃ cid, e.collection_id = some cid ∧
    ∃ m ∈ s.members, m.collection_id = cid ∧ m.user_id = uid

/-- The §4.2 entry-visibility predicate exactly as the spec (and C3) states
it, including the collection-owner clause. Written from the spec's words,
for comparison with the implemented predicate. -/
def visibleClaimed (s : Store) (uid : String) (e : Entry) : Bool :=
  e.user_id == uid ||
    (match e.collection_id with
     | some cid =>
        s.members.any (fun m => m.collection_id == cid && m.user_id == uid) ||
        s.collections.any (fun c => c.id == cid && c.owner_id == uid)
     | none => false)

lemma entryVisibleTo_iff (ms : List CollectionMember) (uid : String) (e : Entry) :
    entryVisibleTo ms uid e = true ↔
      (e.user_id = uid ∨ ∃ cid, e.collection_id = some cid ∧
        ∃ m ∈ ms, m.collection_id = cid ∧ m.user_id = uid) := by
  rw [entryVisibleTo]
  cases hc : e.collection_id with
  | none => simp
  | some cid =>
    simp only [Bool.or_eq_true, beq_iff_eq, List.any_eq_true, Bool.and_eq_true,
      Option.some.injEq]
    constructor
    · rintro (h | ⟨m, hm, h1, h2⟩)
      · exact Or.inl h
      · exact Or.inr ⟨cid, rfl, m, hm, h1, h2⟩
    · rintro (h | ⟨cid', hcid, m, hm, h1, h2⟩)
      · exact Or.inl h
      · cases hcid
        exact Or.inr ⟨m, hm, h1, h2⟩

/-- C3, with the collection-owner clause removed: the candidate set of
`fetch_entries_for_user` contains an entry exactly when the actor created it
or holds a membership row in its collection, and the `visit_entry` access
check succeeds exactly on the same condition for some stored entry with the
requested id. -/
theorem fetch_entries_membership (s : Store) (uid : String) (e : Entry)
    (vid : String) (now : Int) :
    (e ∈ (fetch_entries_for_user s uid).map Prod.fst ↔
      e ∈ s.entries ∧ visibleAmended s uid e) ∧
    ((visit_entry s uid e.id vid now).2 = Response.html ↔
      ∃ x ∈ s.entries, x.id = e.id ∧ visibleAmended s uid x) := by
  constructor
  · rw [fetch_entries_for_user, List.map_map]
    have hid : (Prod.fst ∘ fun x : Entry => (x, visitCount s.visits x.id)) = id := rfl
    rw [hid, List.map_id, List.mem_filter]
    exact and_congr_right fun _ => entryVisibleTo_iff s.members uid e
  · rw [visit_entry]
    cases hf : s.entries.find? (fun x => x.id == e.id && entryVisibleTo s.members uid x) with
    | none =>
      rw [List.find?_eq_none] at hf
      apply iff_of_false
      · exact fun h => Response.noConfusion h
      · rintro ⟨x, hx, hid, hvis⟩
        exact absurd (by
          simp only [Bool.and_eq_true, beq_iff_eq]
          exact ⟨hid, (entryVisibleTo_iff s.members uid x).mpr hvis⟩) (hf x hx)
    | some a =>
      have ha := List.find?_some hf
      simp only [Bool.and_eq_true, beq_iff_eq] at ha
      exact iff_of_true rfl
        ⟨a, List.mem_of_find?_eq_some hf, ha.1,
          (entryVisibleTo_iff s.members uid a).mp ha.2⟩

/-- The concrete sharing scenario refuting C3's owner clause: user "owner"
owns collection "c1" but has no membership row; "alice" created entry "e1"
inside "c1". -/
def c3Collection : Collection :=
  { id := "c1", owner_id := "owner", name := "Shared", invite_code := "code1",
    created_at := 0, updated_at := 0 }

/-- The shared entry of the C3 counterexample scenario. -/
def c3Entry : Entry :=
  { id := "e1", user_id := "alice", collection_id := some "c1",
    url := "https://example.com", title := "T", description := none,
    duration := 3, interval := Interval.days, dismissed_at := none,
    created_at := 0, updated_at := 0 }

/-- The store of the C3 counterexample scenario. -/
def c3Store : Store :=
  { entries := [c3Entry], visits := [], collections := [c3Collection],
    members := [] }

/-- Counterexample to C3 as stated: the spec's predicate (with the
collection-owner clause) declares "e1" visible to "owner", yet the
implemented candidate set for "owner" is empty and the visit access check
denies with NotFound — the SQL has no owner clause. -/
theorem fetch_entries_owner_clause_counterexample :
    visibleClaimed c3Store "owner" c3Entry = true ∧
    fetch_entries_for_user c3Store "owner" = [] ∧
    (visit_entry c3Store "owner" "e1" "v1" 5).2 = Response.notFoundError := by
  decide

/-- C2 amended: edit and delete are gated on `E.user_id = actor` alone, but
visit is gated on the broader owner-or-collection-member predicate: an
unauthorized edit/delete leaves the store unchanged, an access-granted
visit appends the visit row, and a visit without access is a NotFound
no-op. -/
theorem entry_mutation_ownership (s : Store) (uid id vid : String)
    (form : EntryForm) (now : Int) :
    ((¬ ∃ e ∈ s.entries, e.id = id ∧ e.user_id = uid) →
      update_entry s uid id form now = (s, Response.redirect "/") ∧
      delete_entry s uid id = (s, Response.hxRedirect "/")) ∧
    ((∃ e ∈ s.entries, e.id = id ∧ entryVisibleTo s.members uid e = true) →
      (visit_entry s uid id vid now).2 = Response.html ∧
      (visit_entry s uid id vid now).1.visits = s.visits ++ [⟨vid, id, uid, now⟩]) ∧
    ((¬ ∃ e ∈ s.entries, e.id = id ∧ entryVisibleTo s.members uid e = true) →
      visit_entry s uid id vid now = (s, Response.notFoundError)) := by
  refine ⟨fun hno => ?_, fun hyes => ?_, fun hno => ?_⟩
  · have hf : s.entries.find? (fun e => e.id == id && e.user_id == uid) = none := by
      rw [List.find?_eq_none]
      intro x hx hpx
      simp only [Bool.and_eq_true, beq_iff_eq] at hpx
      exact hno ⟨x, hx, hpx⟩
    constructor
    · rw [update_entry, hf]
    · rw [delete_entry, hf]
  · have hf : (s.entries.find?
        (fun e => e.id == id && entryVisibleTo s.members uid e)).isSome = true := by
      rw [List.find?_isSome]
      obtain ⟨x, hx, hid, hvis⟩ := hyes
      exact ⟨x, hx, by simp [hid, hvis]⟩
    rw [visit_entry]
    cases hc : s.entries.find? (fun e => e.id == id && entryVisibleTo s.members uid e) with
    | none => rw [hc] at hf; cases hf
    | some a => exact ⟨rfl, rfl⟩
  · have hf : s.entries.find?
        (fun e => e.id == id && entryVisibleTo s.members uid e) = none := by
      rw [List.find?_eq_none]
      intro x hx hpx
      simp only [Bool.and_eq_true, beq_iff_eq] at hpx
      exact hno ⟨x, hx, hpx⟩
    rw [visit_entry, hf]

/-- The entry of the C2 counterexample scenario, created by "owner" inside
collection "c1". -/
def c2Entry : Entry :=
  { id := "e1", user_id := "owner", collection_id := some "c1",
    url := "https://example.com", title := "T", description := none,
    duration := 3, interval := Interval.days, dismissed_at := none,
    created_at := 0, updated_at := 0 }

/-- The store of the C2 counterexample scenario: "member" holds a
membership row in "c1" but did not create "e1". -/
def c2Store : Store :=
  { entries := [c2Entry]
    visits := []
    collections := [{ id := "c1", owner_id := "owner", name := "Shared",
                      invite_code := "code1", created_at := 0, updated_at := 0 }]
    members := [{ collection_id := "c1", user_id := "member", joined_at := 0 }] }

/-- Counterexample to C2 as stated: "member" is not the creator of "e1",
yet their visit succeeds and mutates the store (the visit lookup also
accepts collection members, unlike edit and delete). -/
theorem visit_by_member_counterexample :
    c2Entry.user_id ≠ "member" ∧
    (visit_entry c2Store "member" "e1" "v1" 50).2 = Response.html ∧
    (visit_entry c2Store "member" "e1" "v1" 50).1 ≠ c2Store := by
  decide

/-- A well-formed entry form used to instantiate form-taking operations at
concrete inputs. -/
def exForm : EntryForm :=
  { url := "https://example.com", title := "T", description := none,
    duration := 3, interval := Interval.days, tags := none,
    collection_id := none }

/-- Witness for C2 (amended) at a concrete input: "member" cannot edit or
delete "e1". -/
theorem entry_mutation_ownership_witness :
    update_entry c2Store "member" "e1" exForm 7 = (c2Store, Response.redirect "/") ∧
    delete_entry c2Store "member" "e1" = (c2Store, Response.hxRedirect "/") :=
  (entry_mutation_ownership c2Store "member" "e1" "v1" exForm 7).1 (by decide)

lemma map_eq_self_of {α : Type} {l : List α} {f : α → α}
    (h : ∀ a ∈ l, f a = a) : l.map f = l := by
  induction l with
  | nil => rfl
  | cons x xs ih =>
    rw [List.map_cons, h x (by simp), ih (fun a ha => h a (by simp [ha]))]

/-- C4 amended: an unauthorized entry edit or delete and every unauthorized
collection mutation (rename, delete, regenerate-invite, remove-member) is a
silent no-op — zero rows affected and the very success response a
legitimate no-op yields — but an unauthorized visit, while also changing no
stored state, surfaces the `AppError::NotFound` error instead of the
success response. -/
theorem unauthorized_mutations_silent (s : Store) (uid id vid target newCode : String)
    (eform : EntryForm) (cform : CollectionForm) (now : Int)
    (hentry : ∀ e ∈ s.entries, e.id = id → e.user_id ≠ uid)
    (hvis : ∀ e ∈ s.entries, e.id = id → entryVisibleTo s.members uid e = false)
    (hcoll : ∀ c ∈ s.collections, c.id = id → c.owner_id ≠ uid)
    (hcf : validate_collection_form cform = []) :
    update_entry s uid id eform now = (s, Response.redirect "/") ∧
    delete_entry s uid id = (s, Response.hxRedirect "/") ∧
    visit_entry s uid id vid now = (s, Response.notFoundError) ∧
    update_collection s uid id cform now = (s, Response.redirect "/collections") ∧
    delete_collection s uid id = (s, Response.hxRedirect "/collections") ∧
    regenerate_invite s uid id newCode now =
      (s, Response.redirect ("/collections/" ++ id)) ∧
    remove_member s uid id target = (s, Response.hxRedirect ("/collections/" ++ id)) := by
  have hef : s.entries.find? (fun e => e.id == id && e.user_id == uid) = none := by
    rw [List.find?_eq_none]
    intro x hx hpx
    simp only [Bool.and_eq_true, beq_iff_eq] at hpx
    exact hentry x hx hpx.1 hpx.2
  have hvf : s.entries.find?
      (fun e => e.id == id && entryVisibleTo s.members uid e) = none := by
    rw [List.find?_eq_none]
    intro x hx hpx
    simp only [Bool.and_eq_true, beq_iff_eq] at hpx
    exact absurd hpx.2 (by simp [hvis x hx hpx.1])
  have hcp : ∀ c ∈ s.collections, (c.id == id && c.owner_id == uid) = false := by
    intro c hc
    by_cases h1 : c.id = id
    · simp [h1, hcoll c hc h1]
    · simp [h1]
  have hcfind : s.collections.find? (fun c => c.id == id && c.owner_id == uid) = none := by
    rw [List.find?_eq_none]
    intro c hc
    simp [hcp c hc]
  refine ⟨?_, ?_, ?_, ?_, ?_, ?_, ?_⟩
  · rw [update_entry, hef]
  · rw [delete_entry, hef]
  · rw [visit_entry, hvf]
  · rw [update_collection, if_neg (by simp [hcf])]
    rw [map_eq_self_of (fun c hc => by rw [hcp c hc]; rfl)]
  · rw [delete_collection]
    rw [List.filter_eq_self.mpr (fun c hc => by rw [hcp c hc]; rfl)]
  · rw [regenerate_invite]
    rw [map_eq_self_of (fun c hc => by rw [hcp c hc]; rfl)]
  · rw [remove_member, hcfind]

/-- The entry of the C4 counterexample scenario, private to "owner". -/
def c4Entry : Entry :=
  { id := "e1", user_id := "owner", collection_id := none,
    url := "https://example.com", title := "T", description := none,
    duration := 3, interval := Interval.days, dismissed_at := none,
    created_at := 0, updated_at := 0 }

/-- The store of the C4 counterexample scenario. -/
def c4Store : Store :=
  { entries := [c4Entry], visits := [], collections := [], members := [] }

/-- Counterexample to C4 as stated: a stranger's visit attempt on "e1" is
indeed a state no-op, but it answers with the NotFound error — not with any
of the success responses a legitimate no-op returns. -/
theorem unauthorized_visit_error_counterexample :
    visit_entry c4Store "stranger" "e1" "v1" 5 = (c4Store, Response.notFoundError) ∧
    Response.notFoundError ≠ Response.html ∧
    (∀ dest, Response.notFoundError ≠ Response.redirect dest) ∧
    (∀ dest, Response.notFoundError ≠ Response.hxRedirect dest) := by
  exact ⟨by decide, by decide, fun dest h => Response.noConfusion h,
    fun dest h => Response.noConfusion h⟩

/-- A well-formed collection form for concrete instantiations. -/
def exCollectionForm : CollectionForm := { name := "N" }

/-- Witness for C4 (amended) at a concrete input: "stranger" touches
nothing in the C4 store. -/
theorem unauthorized_mutations_silent_witness :
    update_entry c4Store "stranger" "e1" exForm 7 = (c4Store, Response.redirect "/") ∧
    delete_entry c4Store "stranger" "e1" = (c4Store, Response.hxRedirect "/") ∧
    visit_entry c4Store "stranger" "e1" "v1" 7 = (c4Store, Response.notFoundError) ∧
    update_collection c4Store "stranger" "e1" exCollectionForm 7 =
      (c4Store, Response.redirect "/collections") ∧
    delete_collection c4Store "stranger" "e1" = (c4Store, Response.hxRedirect "/collections") ∧
    regenerate_invite c4Store "stranger" "e1" "k2" 7 =
      (c4Store, Response.redirect ("/collections/" ++ "e1")) ∧
    remove_member c4Store "stranger" "e1" "bob" =
      (c4Store, Response.hxRedirect ("/collections/" ++ "e1")) :=
  unauthorized_mutations_silent c4Store "stranger" "e1" "v1" "bob" "k2"
    exForm exCollectionForm 7 (by decide) (by decide) (by decide) (by decide)

/-- The two store writes of the `visit_entry` success path
(`src/routes/entries.rs` lines 364-382), in program order. Each is executed
by its own `sqlx::query(...).execute(&state.db)` call against the pool —
two separately autocommitted SQLite statements; the handler opens no
transaction around them, so the state between them is a committed store
state whenever the second statement fails. -/
def visitWriteSeq (id uid vid : String) (now : Int) : List (Store → Store) :=
  [fun s => insertVisitRow s ⟨vid, id, uid, now⟩,
   fun s => setDismissedAt s id now]

/-- Fold a list of committed store writes over a starting state. -/
def applyWrites (s : Store) (ws : List (Store → Store)) : Store :=
  ws.foldl (fun st w => w st) s

/-- The never-dismissed entry of the C6 failing scenario. -/
def c6Entry : Entry :=
  { id := "e1", user_id := "owner", collection_id := none,
    url := "https://example.com", title := "T", description := none,
    duration := 3, interval := Interval.days, dismissed_at := none,
    created_at := 0, updated_at := 0 }

/-- The store of the C6 failing scenario. -/
def c6Store : Store :=
  { entries := [c6Entry], visits := [], collections := [], members := [] }

/-- C6 evidence: the authorized visit path is exactly the two-write sequence
`visitWriteSeq`, the state after only its first write already carries the
visit row with the entries untouched, and on the concrete store that
intermediate committed state has the visit recorded while `dismissed_at` is
still unset — the state the spec's single-transaction requirement rules
out. -/
theorem visit_entry_not_atomic :
    (∀ (s : Store) (uid id vid : String) (now : Int),
      (s.entries.find? (fun e => e.id == id && entryVisibleTo s.members uid e)).isSome
        = true →
      (visit_entry s uid id vid now).1 = applyWrites s (visitWriteSeq id uid vid now)) ∧
    (∀ (s : Store) (id uid vid : String) (now : Int),
      applyWrites s ((visitWriteSeq id uid vid now).take 1) =
        { s with visits := s.visits ++ [⟨vid, id, uid, now⟩] }) ∧
    ((applyWrites c6Store ((visitWriteSeq "e1" "owner" "v1" 100).take 1)).visits =
        [⟨"v1", "e1", "owner", 100⟩] ∧
      (applyWrites c6Store ((visitWriteSeq "e1" "owner" "v1" 100).take 1)).entries =
        c6Store.entries ∧
      c6Entry.dismissed_at = none) := by
  refine ⟨?_, fun s id uid vid now => rfl, by decide, by decide, by decide⟩
  intro s uid id vid now h
  rw [visit_entry]
  cases hf : s.entries.find? (fun e => e.id == id && entryVisibleTo s.members uid e) with
  | none => rw [hf] at h; cases h
  | some a => rfl

/-- Witness for C6's conditional clause at a concrete input: the authorized
visit on the C6 store performs the modelled write sequence. -/
theorem visit_entry_not_atomic_witness :
    (visit_entry c6Store "owner" "e1" "v1" 100).1 =
      applyWrites c6Store (visitWriteSeq "e1" "owner" "v1" 100) :=
  visit_entry_not_atomic.1 c6Store "owner" "e1" "v1" 100 (by decide)

/-- §3's CollectionMember row identity: no two rows share the
(collection, user) pair. -/
def memberPairOnce (ms : List CollectionMember) : Prop :=
  ms.Pairwise (fun a b => ¬(a.collection_id = b.collection_id ∧ a.user_id = b.user_id))

/-- §3: the owner is implicit and never stored as a member row. -/
def noOwnerMemberRows (s : Store) : Prop :=
  ∀ m ∈ s.members, ∀ c ∈ s.collections, c.id = m.collection_id →
    c.owner_id ≠ m.user_id

/-- Any two stored collection rows with the same id agree on the owner (in
the schema the id is the primary key, so this is immediate there). -/
def consistentOwners (cs : List Collection) : Prop :=
  ∀ c1 ∈ cs, ∀ c2 ∈ cs, c1.id = c2.id → c1.owner_id = c2.owner_id

/-- The C8 membership invariant. -/
def membershipInv (s : Store) : Prop :=
  memberPairOnce s.members ∧ noOwnerMemberRows s ∧ consistentOwners s.collections

/-- The three membership-changing operations of C8. -/
inductive MemberOp where
| join (uid code : String) (now : Int)
| leave (uid cid : String)
| removeMember (uid cid target : String)

/-- The store state reached by one membership operation. -/
def applyMemberOp (s : Store) : MemberOp → Store
| .join uid code now => (join_collection s uid code now).1
| .leave uid cid => (leave_collection s uid cid).1
| .removeMember uid cid target => (remove_member s uid cid target).1

lemma memberPairOnce_filter {ms : List CollectionMember} (q : CollectionMember → Bool)
    (h : memberPairOnce ms) : memberPairOnce (ms.filter q) :=
  List.Pairwise.sublist (List.filter_sublist ms) h

lemma memberPairOnce_insertOrIgnore {ms : List CollectionMember} {m : CollectionMember}
    (h : memberPairOnce ms) : memberPairOnce (insertOrIgnoreMember ms m) := by
  rw [insertOrIgnoreMember]
  split
  · exact h
  · rename_i hany
    rw [memberPairOnce, List.pairwise_append]
    refine ⟨h, List.pairwise_singleton _ _, ?_⟩
    intro a ha b hb
    rw [List.mem_singleton] at hb
    subst hb
    rintro ⟨h1, h2⟩
    exact hany (List.any_eq_true.mpr ⟨a, ha, by simp [h1, h2]⟩)

lemma membershipInv_join (s : Store) (uid code : String) (now : Int)
    (h : membershipInv s) : membershipInv (join_collection s uid code now).1 := by
  obtain ⟨h1, h2, h3⟩ := h
  cases hf : s.collections.find? (fun c => c.invite_code == code) with
  | none =>
    simp only [join_collection, hf]
    exact ⟨h1, h2, h3⟩
  | some c =>
    by_cases ho : (c.owner_id == uid) = true
    · simp only [join_collection, hf, if_pos ho]
      exact ⟨h1, h2, h3⟩
    · simp only [join_collection, hf, if_neg ho]
      refine ⟨memberPairOnce_insertOrIgnore h1, ?_, h3⟩
      intro m hm c' hc' hid
      have hmem : m ∈ s.members ∨ m = ⟨c.id, uid, now⟩ := by
        rw [insertOrIgnoreMember] at hm
        split at hm
        · exact Or.inl hm
        · rcases List.mem_append.mp hm with hmm | hmm
          · exact Or.inl hmm
          · exact Or.inr (List.mem_singleton.mp hmm)
      rcases hmem with hm' | rfl
      · exact h2 m hm' c' hc' hid
      · have hcmem : c ∈ s.collections := List.mem_of_find?_eq_some hf
        have howner : c'.owner_id = c.owner_id := h3 c' hc' c hcmem hid
        rw [howner]
        simp only [beq_iff_eq] at ho
        exact ho

lemma membershipInv_leave (s : Store) (uid cid : String)
    (h : membershipInv s) : membershipInv (leave_collection s uid cid).1 := by
  obtain ⟨h1, h2, h3⟩ := h
  refine ⟨memberPairOnce_filter _ h1, ?_, h3⟩
  intro m hm c hc hid
  exact h2 m (List.mem_filter.mp hm).1 c hc hid

lemma membershipInv_remove (s : Store) (uid cid target : String)
    (h : membershipInv s) : membershipInv (remove_member s uid cid target).1 := by
  obtain ⟨h1, h2, h3⟩ := h
  rw [remove_member]
  cases hf : s.collections.find? (fun c => c.id == cid && c.owner_id == uid) with
  | none => exact ⟨h1, h2, h3⟩
  | some c =>
    refine ⟨memberPairOnce_filter _ h1, ?_, h3⟩
    intro m hm c' hc' hid
    exact h2 m (List.mem_filter.mp hm).1 c' hc' hid

lemma membershipInv_step (s : Store) (op : MemberOp) (h : membershipInv s) :
    membershipInv (applyMemberOp s op) := by
  cases op with
  | join uid code now => exact membershipInv_join s uid code now h
  | leave uid cid => exact membershipInv_leave s uid cid h
  | removeMember uid cid target => exact membershipInv_remove s uid cid target h

lemma countP_le_one_of_pairwise {ms : List CollectionMember} (h : memberPairOnce ms)
    (cid uid : String) :
    ms.countP (fun m => m.collection_id == cid && m.user_id == uid) ≤ 1 := by
  induction ms with
  | nil => simp
  | cons x xs ih =>
    rw [List.countP_cons]
    rcases List.pairwise_cons.mp h with ⟨hx, hxs⟩
    by_cases hpx : (x.collection_id == cid && x.user_id == uid) = true
    · have h0 : xs.countP (fun m => m.collection_id == cid && m.user_id == uid) = 0 := by
        rw [List.countP_eq_zero]
        intro a ha hpa
        simp only [Bool.and_eq_true, beq_iff_eq] at hpx hpa
        exact hx a ha ⟨hpx.1.trans hpa.1.symm, hpx.2.trans hpa.2.symm⟩
      rw [h0, if_pos hpx]
    · have := ih hxs
      rw [if_neg hpx]
      omega

lemma insertOrIgnore_pair_idem (ms : List CollectionMember) (m1 m2 : CollectionMember)
    (hc : m2.collection_id = m1.collection_id) (hu : m2.user_id = m1.user_id) :
    insertOrIgnoreMember (insertOrIgnoreMember ms m1) m2 = insertOrIgnoreMember ms m1 := by
  by_cases h1 : (ms.any fun x =>
      x.collection_id == m1.collection_id && x.user_id == m1.user_id) = true
  · have e1 : insertOrIgnoreMember ms m1 = ms := by
      rw [insertOrIgnoreMember, if_pos h1]
    rw [e1]
    rw [insertOrIgnoreMember, if_pos (by rw [hc, hu]; exact h1)]
  · have e1 : insertOrIgnoreMember ms m1 = ms ++ [m1] := by
      rw [insertOrIgnoreMember, if_neg h1]
    rw [e1]
    have h2 : ((ms ++ [m1]).any fun x =>
        x.collection_id == m2.collection_id && x.user_id == m2.user_id) = true := by
      rw [List.any_append]
      have hone : ([m1].any fun x =>
          x.collection_id == m2.collection_id && x.user_id == m2.user_id) = true := by
        simp [hc, hu]
      rw [hone, Bool.or_true]
    rw [insertOrIgnoreMember, if_pos h2]

/-- C8: starting from any store satisfying the membership invariant, every
sequence of join, leave and remove-member operations preserves it (at most
one row per (collection, user) pair, never a row for the owner); a second
join with the same invite code leaves the membership table exactly as after
the first; and a successful join by a non-owner yields exactly one row for
that pair. -/
theorem membership_set_invariant (s : Store) (hinv : membershipInv s) :
    (∀ ops : List MemberOp, membershipInv (ops.foldl applyMemberOp s)) ∧
    (∀ (uid code : String) (t1 t2 : Int),
      ((join_collection (join_collection s uid code t1).1 uid code t2).1).members =
        ((join_collection s uid code t1).1).members) ∧
    (∀ (uid code : String) (t : Int) (c : Collection),
      s.collections.find? (fun x => x.invite_code == code) = some c →
      c.owner_id ≠ uid →
      ((join_collection s uid code t).1).members.countP
        (fun m => m.collection_id == c.id && m.user_id == uid) = 1) := by
  have hfold : ∀ (ops : List MemberOp) (st : Store), membershipInv st →
      membershipInv (ops.foldl applyMemberOp st) := by
    intro ops
    induction ops with
    | nil => exact fun st h => h
    | cons op rest ih => exact fun st h => ih _ (membershipInv_step st op h)
  refine ⟨fun ops => hfold ops s hinv, ?_, ?_⟩
  · intro uid code t1 t2
    cases hf : s.collections.find? (fun c => c.invite_code == code) with
    | none => simp [join_collection, hf]
    | some c =>
      by_cases ho : (c.owner_id == uid) = true
      · simp [join_collection, hf, ho]
      · simp only [join_collection, hf, if_neg ho]
        exact insertOrIgnore_pair_idem s.members ⟨c.id, uid, t1⟩ ⟨c.id, uid, t2⟩ rfl rfl
  · intro uid code t c hf ho
    simp only [join_collection, hf, if_neg (show ¬ (c.owner_id == uid) = true by
      simpa using ho)]
    rw [insertOrIgnoreMember]
    split
    · rename_i hany
      have hub := countP_le_one_of_pairwise hinv.1 c.id uid
      have hlb : 0 < s.members.countP
          (fun m => m.collection_id == c.id && m.user_id == uid) := by
        rw [List.countP_pos_iff]
        obtain ⟨a, ha, hpa⟩ := List.any_eq_true.mp hany
        exact ⟨a, ha, hpa⟩
      omega
    · rename_i hany
      rw [List.countP_append]
      have h0 : s.members.countP
          (fun m => m.collection_id == c.id && m.user_id == uid) = 0 := by
        rw [List.countP_eq_zero]
        intro a ha hpa
        exact hany (List.any_eq_true.mpr ⟨a, ha, hpa⟩)
      rw [h0]
      simp [List.countP_cons]

/-- The collection of the C8 witness scenario. -/
def c8Collection : Collection :=
  { id := "c1", owner_id := "owner", name := "Shared", invite_code := "code1",
    created_at := 0, updated_at := 0 }

/-- The store of the C8 witness scenario: one collection, no members yet. -/
def c8Store : Store :=
  { entries := [], visits := [], collections := [c8Collection], members := [] }

/-- Witness for C8 at a concrete input: joining "c1" once as "member"
yields exactly one membership row for the pair. -/
theorem membership_set_invariant_witness :
    ((join_collection c8Store "member" "code1" 5).1).members.countP
      (fun m => m.collection_id == c8Collection.id && m.user_id == "member") = 1 := by
  have hinv : membershipInv c8Store := by
    refine ⟨List.Pairwise.nil, ?_, ?_⟩
    · intro m hm
      exact absurd hm (List.not_mem_nil m)
    · intro c1 h1 c2 h2 _
      simp only [c8Store, List.mem_singleton] at h1 h2
      subst h1
      subst h2
      rfl
  exact (membership_set_invariant c8Store hinv).2.2 "member" "code1" 5 c8Collection
    (by decide) (by decide)

/-- A (tag name, usage count) pair as read by `list_tags`
(`src/routes/tags.rs`). -/
structure TagWithCount where
  name : String
  count : Int
deriving DecidableEq, Repr

/-- A rendered tag-cloud item from `src/routes/tags.rs`. The numeric weight
and colour channels are kept as real numbers; the trailing
CSS string formatting of lines 79-80 is rendering only. The `f64`
arithmetic of the source is idealised as real arithmetic (exact for the
entry-count magnitudes involved). -/
structure TagCloudItem where
  name : String
  count : Int
  font_size : ℝ
  hue : ℝ
  sat : ℝ
  light : ℝ

/-- `tags.iter().map(|t| t.count).min().unwrap_or(1)` of
`build_tag_cloud`; likewise for max. -/
def minCount (tags : List TagWithCount) : Int :=
  ((tags.map (fun t => t.count)).min?).getD 1

/-- The maximum usage count, `unwrap_or(1)` on an empty list. -/
def maxCount (tags : List TagWithCount) : Int :=
  ((tags.map (fun t => t.count)).max?).getD 1

open Classical in
/-- The logarithmic ratio of `build_tag_cloud` lines 57-69: the midpoint 0.5
when `max_count == min_count` or when the logs coincide, else
`(ln count - ln min) / (ln max - ln min)`. -/
noncomputable def tagRatio (minC maxC c : Int) : ℝ :=
  if (maxC : ℝ) = (minC : ℝ) then 0.5
  else if Real.log (maxC : ℝ) = Real.log (minC : ℝ) then 0.5
  else (Real.log (c : ℝ) - Real.log (minC : ℝ)) /
    (Real.log (maxC : ℝ) - Real.log (minC : ℝ))

/-- `build_tag_cloud` from `src/routes/tags.rs` lines 34-84: empty input
yields an empty cloud; otherwise each tag's ratio maps linearly onto the
size range 0.75-2.5, hue 180-260, saturation 40-60, and inverted lightness
70-35. -/
noncomputable def build_tag_cloud (tags : List TagWithCount) : List TagCloudItem :=
  if tags.isEmpty then []
  else
    tags.map (fun tag =>
      let ratio := tagRatio (minCount tags) (maxCount tags) tag.count
      { name := tag.name
        count := tag.count
        font_size := 0.75 + ratio * (2.5 - 0.75)
        hue := 180.0 + ratio * (260.0 - 180.0)
        sat := 40.0 + ratio * (60.0 - 40.0)
        light := 70.0 - ratio * (70.0 - 35.0) })

lemma int_min?_le {l : List Int} {a x : Int} (h : l.min? = some a) (hx : x ∈ l) :
    a ≤ x := by
  have anti : Std.Antisymm fun x1 x2 : Int => x1 ≤ x2 := ⟨@le_antisymm Int _⟩
  have hh := (List.min?_eq_some_iff (fun a => le_refl a) (fun a b => min_choice a b)
    (fun a b c => le_min_iff)).mp h
  exact hh.2 x hx

lemma int_le_max? {l : List Int} {a x : Int} (h : l.max? = some a) (hx : x ∈ l) :
    x ≤ a := by
  have anti : Std.Antisymm fun x1 x2 : Int => x1 ≤ x2 := ⟨@le_antisymm Int _⟩
  have hh := (List.max?_eq_some_iff (fun a => le_refl a) (fun a b => max_choice a b)
    (fun a b c => max_le_iff)).mp h
  exact hh.2 x hx

lemma minCount_le_of_mem {tags : List TagWithCount} {t : TagWithCount}
    (ht : t ∈ tags) : minCount tags ≤ t.count := by
  have hmem : t.count ∈ tags.map (fun t => t.count) := List.mem_map.mpr ⟨t, ht, rfl⟩
  cases hq : (tags.map (fun t => t.count)).min? with
  | none =>
    rcases List.mem_iff_get.mp hmem with ⟨i, _⟩
    cases hl : tags.map (fun t => t.count) with
    | nil => rw [hl] at hmem; cases hmem
    | cons y ys => rw [hl, List.min?_cons] at hq; cases hq
  | some a =>
    have := int_min?_le hq hmem
    simpa [minCount, hq] using this

lemma le_maxCount_of_mem {tags : List TagWithCount} {t : TagWithCount}
    (ht : t ∈ tags) : t.count ≤ maxCount tags := by
  have hmem : t.count ∈ tags.map (fun t => t.count) := List.mem_map.mpr ⟨t, ht, rfl⟩
  cases hq : (tags.map (fun t => t.count)).max? with
  | none =>
    cases hl : tags.map (fun t => t.count) with
    | nil => rw [hl] at hmem; cases hmem
    | cons y ys => rw [hl, List.max?_cons] at hq; cases hq
  | some a =>
    have := int_le_max? hq hmem
    simpa [maxCount, hq] using this

lemma one_le_minCount {tags : List TagWithCount}
    (hpos : ∀ t ∈ tags, 1 ≤ t.count) : 1 ≤ minCount tags := by
  cases hq : (tags.map (fun t => t.count)).min? with
  | none => simp [minCount, hq]
  | some a =>
    have hmem := List.min?_mem (fun a b : Int => min_choice a b) hq
    obtain ⟨t, ht, hteq⟩ := List.mem_map.mp hmem
    rw [minCount, hq]
    simpa [hteq] using hpos t ht

lemma tagRatio_lt (m M c1 c2 : Int) (hm : 1 ≤ m)
    (h1 : m ≤ c1) (h2 : c2 ≤ M) (hc : c1 < c2) :
    tagRatio m M c1 < tagRatio m M c2 := by
  have hmM : m < M := lt_of_le_of_lt h1 (lt_of_lt_of_le hc h2)
  have hne : ¬ ((M : ℝ) = (m : ℝ)) := by
    intro hh
    exact absurd (by exact_mod_cast hh : M = m) (ne_of_gt hmM)
  have hmpos : (0 : ℝ) < (m : ℝ) := by exact_mod_cast (by omega : (0 : Int) < m)
  have hlog : Real.log (m : ℝ) < Real.log (M : ℝ) :=
    Real.log_lt_log hmpos (by exact_mod_cast hmM)
  have hlne : ¬ (Real.log (M : ℝ) = Real.log (m : ℝ)) := ne_of_gt hlog
  rw [tagRatio, tagRatio, if_neg hne, if_neg hlne, if_neg hne, if_neg hlne]
  have hden : 0 < Real.log (M : ℝ) - Real.log (m : ℝ) := by linarith
  have hc1pos : (0 : ℝ) < (c1 : ℝ) := by exact_mod_cast (by omega : (0 : Int) < c1)
  have hnum : Real.log (c1 : ℝ) < Real.log (c2 : ℝ) :=
    Real.log_lt_log hc1pos (by exact_mod_cast hc)
  have hsub : Real.log (c1 : ℝ) - Real.log (m : ℝ) <
      Real.log (c2 : ℝ) - Real.log (m : ℝ) := by linarith
  exact div_lt_div_of_pos_right hsub hden

/-- C9: the tag-weight normalizer maps an empty list to an empty cloud,
assigns the midpoint ratio 0.5 to every tag when the minimum and maximum
counts coincide, and otherwise the natural-log interpolation makes the
computed font size strictly increase and the lightness strictly decrease
(darker) with strictly greater counts, for counts ≥ 1. -/
theorem tag_cloud_weights (tags : List TagWithCount)
    (hpos : ∀ t ∈ tags, 1 ≤ t.count) :
    build_tag_cloud ([] : List TagWithCount) = [] ∧
    (minCount tags = maxCount tags →
      ∀ t ∈ tags, tagRatio (minCount tags) (maxCount tags) t.count = 0.5) ∧
    (∀ i1 ∈ build_tag_cloud tags, ∀ i2 ∈ build_tag_cloud tags,
      i1.count < i2.count → i1.font_size < i2.font_size ∧ i2.light < i1.light) := by
  refine ⟨rfl, ?_, ?_⟩
  · intro heq t ht
    rw [tagRatio, if_pos (by rw [heq])]
  · intro i1 hi1 i2 hi2 hlt
    by_cases hemp : tags.isEmpty
    · rw [build_tag_cloud, if_pos hemp] at hi1
      cases hi1
    · rw [build_tag_cloud, if_neg hemp] at hi1 hi2
      obtain ⟨t1, ht1, rfl⟩ := List.mem_map.mp hi1
      obtain ⟨t2, ht2, rfl⟩ := List.mem_map.mp hi2
      dsimp only at hlt ⊢
      have hr := tagRatio_lt (minCount tags) (maxCount tags) t1.count t2.count
        (one_le_minCount hpos) (minCount_le_of_mem ht1) (le_maxCount_of_mem ht2) hlt
      constructor <;> nlinarith [hr]

/-- The three-tag input of the C9 witness, counts 1, 5, 50. -/
def exTags : List TagWithCount := [⟨"a", 1⟩, ⟨"b", 5⟩, ⟨"c", 50⟩]

/-- Witness for C9 at a concrete input: counts 1, 5, 50. -/
theorem tag_cloud_weights_witness :
    (∀ t ∈ exTags, 1 ≤ t.count) ∧
    (build_tag_cloud ([] : List TagWithCount) = [] ∧
     (minCount exTags = maxCount exTags →
       ∀ t ∈ exTags, tagRatio (minCount exTags) (maxCount exTags) t.count = 0.5) ∧
     (∀ i1 ∈ build_tag_cloud exTags, ∀ i2 ∈ build_tag_cloud exTags,
       i1.count < i2.count → i1.font_size < i2.font_size ∧ i2.light < i1.light)) :=
  ⟨by decide, tag_cloud_weights exTags (by decide)⟩

end Interne
